import Mathlib

/-
  Verification of the lionagi directive-execution core against its
  natural-language specification.

  Shallow embedding of:
  - the retry/timeout executor `tcall`/`rcall`
    (src/src/lionagi/libs/async_utils.py),
  - the strict-argument validation and invocation of `FunctionCalling`
    (src/lionagi/operatives/action/function_calling.py),
  - the action dispatcher `DirectiveMixin._process_action_request`
    (src/lionagi/core/unit/unit_mixin.py),
  - the bounded extension loop and PLEASE_ACTION follow-up of
    `DirectiveMixin._base_direct` / `_extend` (same file).

  Python values, exceptions and asynchronous effects are modelled
  explicitly: machine time is a Nat tick counter, exceptions are data
  (`Exc`), fallible code returns `Except`, and the event loop's
  concurrent `asyncio.gather` is modelled by an explicit completion
  schedule that is proved irrelevant to the gathered result order.
-/

/-- Decidable equality for `Except`, needed so that executor results can
be compared by `decide` in concrete scenarios. -/
instance {ε α : Type} [DecidableEq ε] [DecidableEq α] : DecidableEq (Except ε α) := fun a b =>
  match a, b with
  | .ok x, .ok y =>
      if h : x = y then isTrue (congrArg Except.ok h)
      else isFalse (fun hc => h (Except.ok.inj hc))
  | .error x, .error y =>
      if h : x = y then isTrue (congrArg Except.error h)
      else isFalse (fun hc => h (Except.error.inj hc))
  | .ok _, .error _ => isFalse (fun hc => Except.noConfusion hc)
  | .error _, .ok _ => isFalse (fun hc => Except.noConfusion hc)

namespace AsyncUtils

/-- Python runtime values flowing through `tcall`/`rcall`: `vnone` is
Python `None`, `ellipsis` is the `...` object that `rcall` passes to
`tcall` as `default`, and `timed v d` is the `(result, duration)` pair
produced when `timing=True`. -/
inductive V where
  | vnone : V
  | ellipsis : V
  | int : Int → V
  | str : String → V
  | timed : V → Nat → V
  deriving DecidableEq, Repr

/-- Whether a value is a `(result, duration)` pair. -/
def V.isTimed : V → Bool
  | .timed _ _ => true
  | _ => false

/-- Exception classes relevant to `tcall`/`rcall`: `timeoutErr` is
`TimeoutError` (raised by `asyncio.wait_for` or by the callee),
`runtimeErr` is `RuntimeError`, `custom n` stands for any other
user-defined exception class. `type(e) in error_map` is an exact type
lookup, so classes are compared by equality. -/
inductive ExcTy where
  | timeoutErr : ExcTy
  | runtimeErr : ExcTy
  | custom : Nat → ExcTy
  deriving DecidableEq, Repr

/-- An exception instance: its class and its message. -/
structure Exc where
  ty : ExcTy
  msg : String
  deriving DecidableEq, Repr

/-- The `default` parameter: `UNDEFINED` (the lionagi sentinel meaning
"no default configured") or a configured value. `default=None` is a
configured value (`val .vnone`), distinct from `undefined`. -/
inductive Dflt where
  | undefined : Dflt
  | val : V → Dflt
  deriving DecidableEq, Repr

/-- An error handler from `error_map`: an arbitrary callable that may
itself raise. -/
abbrev Handler := Exc → Except Exc Unit

/-- Exact-type lookup in `error_map` (`type(e) in error_map`). -/
def emLookup : List (ExcTy × Handler) → ExcTy → Option Handler
  | [], _ => none
  | (t, h) :: rest, ty => if t = ty then some h else emLookup rest ty

/-- Configuration of one `tcall` invocation (async_utils.py:146-157). -/
structure TCfg where
  delay : Nat
  errMsg : Option String
  timing : Bool
  timeout : Option Nat
  default : Dflt
  errorMap : List (ExcTy × Handler)

/-- The observable behaviour of one invocation of the wrapped function:
how many time ticks the call takes if allowed to run to completion, and
whether it returns a value or raises. -/
structure AttemptOutcome where
  dur : Nat
  res : Except Exc V

/-- Result of `tcall`: the returned value or the raised exception,
together with the list of `error_map` handlers that were invoked. -/
structure TOut where
  res : Except Exc V
  handlers : List ExcTy
  deriving DecidableEq, Repr

/-- The outcome of the `try` block of `tcall` (async_utils.py:198-218):
the callee's own result, unless a configured `timeout` is exceeded, in
which case `asyncio.wait_for` raises `TimeoutError` at the deadline.
The second component is the elapsed time at that point. -/
def tryBlock (cfg : TCfg) (att : AttemptOutcome) : Except Exc V × Nat :=
  match cfg.timeout with
  | some t =>
      if t < att.dur then (Except.error ⟨.timeoutErr, "wait_for"⟩, cfg.delay + t)
      else (att.res, cfg.delay + att.dur)
  | none => (att.res, cfg.delay + att.dur)

/-- The `except` clauses of `tcall` (async_utils.py:223-245), applied to
the try-block's outcome: `except TimeoutError` runs first, then
`except Exception` consults `error_map` before the `default`. -/
def handleOutcome (cfg : TCfg) (eff : Except Exc V × Nat) : TOut :=
  match eff with
  | (.ok v, d) => ⟨.ok (if cfg.timing then .timed v d else v), []⟩
  | (.error e, d) =>
      if e.ty = .timeoutErr then
        match cfg.default with
        | .val dv => ⟨.ok (if cfg.timing then .timed dv d else dv), []⟩
        | .undefined =>
            ⟨.error ⟨.timeoutErr,
              (cfg.errMsg.getD "") ++ " Timeout " ++
                (match cfg.timeout with | some t => toString t | none => "None") ++
                " seconds exceeded"⟩, []⟩
      else
        match emLookup cfg.errorMap e.ty with
        | some h =>
            match h e with
            | .ok _ => ⟨.ok (if cfg.timing then .timed .vnone d else .vnone), [e.ty]⟩
            | .error e2 => ⟨.error e2, [e.ty]⟩
        | none =>
            match cfg.default with
            | .val dv => ⟨.ok (if cfg.timing then .timed dv d else dv), []⟩
            | .undefined =>
                ⟨.error ⟨.runtimeErr,
                  match cfg.errMsg with
                  | some m => m ++ " Error: " ++ e.msg
                  | none => "An error occurred in async execution: " ++ e.msg⟩, []⟩

/-- Embedding of `tcall` (async_utils.py:196-245): run the try-block,
then apply the `except` clauses to whatever it produced.  An attempt
timeout never consults `error_map`; a mapped handler swallows the error
and `None` is returned; otherwise a configured `default` is returned,
and with no default the error is re-raised wrapped in `RuntimeError`. -/
def tcall (cfg : TCfg) (att : AttemptOutcome) : TOut :=
  handleOutcome cfg (tryBlock cfg att)

/-- Configuration of `rcall` (async_utils.py:364-379).  `retryDelay` and
`backoffFactor` only affect sleeping between attempts and have no other
observable effect, so they are carried but unused. -/
structure RCfg where
  numRetries : Nat
  delay : Nat
  retryDelay : Nat
  backoffFactor : Nat
  default : Dflt
  timeout : Option Nat
  timing : Bool
  errMsg : Option String
  errorMap : List (ExcTy × Handler)

/-- Result of `rcall`: return value or raised exception, the number of
times the wrapped operation was invoked, and all handlers invoked. -/
structure RcallOut where
  res : Except Exc V
  attempts : Nat
  handlers : List ExcTy
  deriving DecidableEq, Repr

/-- The `tcall` configuration that `rcall` builds for attempt `i`
(async_utils.py:414-424): `delay` only on the first attempt, and
crucially `default=...` (the Ellipsis object, which is not the
`UNDEFINED` sentinel). -/
def tcfgOf (cfg : RCfg) (i : Nat) : TCfg :=
  { delay := if i = 0 then cfg.delay else 0
    errMsg := cfg.errMsg
    timing := cfg.timing
    timeout := cfg.timeout
    default := .val .ellipsis
    errorMap := cfg.errorMap }

/-- The `for attempt in range(num_retries + 1)` loop of `rcall`
(async_utils.py:410-447): `i` is the current attempt index and `r` the
number of attempts remaining (including the current one). -/
def rcallLoop (cfg : RCfg) (f : Nat → AttemptOutcome) : Nat → Nat → RcallOut
  | _, 0 => ⟨.error ⟨.runtimeErr, "loop exhausted"⟩, 0, []⟩
  | i, r + 1 =>
      let t := tcall (tcfgOf cfg i) (f i)
      match t.res with
      | .ok v => ⟨.ok v, 1, t.handlers⟩
      | .error e =>
          if 0 < r then
            let rest := rcallLoop cfg f (i + 1) r
            ⟨rest.res, rest.attempts + 1, t.handlers ++ rest.handlers⟩
          else
            match cfg.default with
            | .val d => ⟨.ok d, 1, t.handlers⟩
            | .undefined =>
                ⟨.error ⟨.runtimeErr,
                  (cfg.errMsg.getD "") ++ " Operation failed after " ++
                    toString (cfg.numRetries + 1) ++ " attempts: " ++ e.msg⟩,
                 1, t.handlers⟩

/-- Embedding of `rcall` (async_utils.py:364-447): up to
`num_retries + 1` attempts, each run through `tcall`; `f i` is the
behaviour of the wrapped operation on its `i`-th invocation. -/
def rcall (cfg : RCfg) (f : Nat → AttemptOutcome) : RcallOut :=
  rcallLoop cfg f 0 (cfg.numRetries + 1)

end AsyncUtils

namespace FnCall

/-- Argument dicts passed to a tool: keyword/value pairs. -/
abbrev Args := List (String × String)

/-- The key set of an argument dict (`set(self.arguments.keys())`). -/
def argKeys (a : Args) : Finset String := (a.map Prod.fst).toFinset

/-- Status of an action event (lionagi/protocols EventStatus). -/
inductive EventStatus where
  | pending : EventStatus
  | completed : EventStatus
  | failed : EventStatus
  deriving DecidableEq, Repr

/-- The `execution` record of an event: status, response payload and
error message (set by `FunctionCalling.invoke`). -/
structure Execution where
  status : EventStatus
  response : Option String
  error : Option String
  deriving DecidableEq, Repr

/-- The fields of `Tool` (operatives/action/tool.py) that
`FunctionCalling` reads: the strict flag, the two field-name sets, the
underlying callable and the optional pre- and post-processing hooks.  The
callable and hooks are modelled by their outcome functions, which may
raise (`Except.error`). -/
structure Tool where
  strict_func_call : Bool
  required_fields : Finset String
  minimum_acceptable_fields : Finset String
  func_callable : Args → Except String String
  preprocessor : Option (Args → Except String Args)
  postprocessor : Option (String → Except String String)

/-- Embedding of `FunctionCalling._validate_strict_tool`
(function_calling.py:21-35): strict tools require the argument keys to
equal `required_fields` exactly; non-strict tools require
`minimum_acceptable_fields` to be a subset of the argument keys.
Failure raises `ValueError("arguments must match the function schema")`
at construction time (pydantic `model_validator`). -/
def validate_strict_tool (t : Tool) (arguments : Args) : Except String Unit :=
  if t.strict_func_call then
    if argKeys arguments = t.required_fields then .ok ()
    else .error "arguments must match the function schema"
  else
    if t.minimum_acceptable_fields ⊆ argKeys arguments then .ok ()
    else .error "arguments must match the function schema"

/-- Result of `FunctionCalling.invoke`: the execution record plus
whether the underlying callable was actually entered. -/
structure InvokeOut where
  execution : Execution
  callableExecuted : Bool
  deriving DecidableEq, Repr

/-- Embedding of `FunctionCalling.invoke` (function_calling.py:40-84):
preprocess the arguments if a hook is set, call the underlying
callable, postprocess the result if a hook is set; any exception raised
along the way is caught and recorded as a FAILED execution — `invoke`
itself never raises. -/
def invoke (t : Tool) (arguments : Args) : InvokeOut :=
  match (match t.preprocessor with | some p => p arguments | none => .ok arguments) with
  | .error e => ⟨⟨.failed, none, some e⟩, false⟩
  | .ok args1 =>
      match t.func_callable args1 with
      | .error e => ⟨⟨.failed, none, some e⟩, true⟩
      | .ok r =>
          match (match t.postprocessor with | some q => q r | none => .ok r) with
          | .error e => ⟨⟨.failed, none, some e⟩, true⟩
          | .ok r2 => ⟨⟨.completed, some r2, none⟩, true⟩

/-- Constructing a `FunctionCalling` event runs the strict validation
(pydantic validates on construction), and only a successfully
constructed event can be invoked: the pair records the overall outcome
and whether the underlying callable ever ran. -/
def createAndInvoke (t : Tool) (arguments : Args) : Except String Execution × Bool :=
  match validate_strict_tool t arguments with
  | .error e => (.error e, false)
  | .ok _ =>
      let o := invoke t arguments
      (.ok o.execution, o.callableExecuted)

end FnCall

namespace Dispatch

/-- Argument dict of an action request, carried opaquely. -/
abbrev Args := List (String × String)

/-- A parsed action request (core/message ActionRequest): function
name, arguments, sender (the branch) and recipient (the tool, set at
resolution time). -/
structure ActionRequest where
  function : String
  arguments : Args
  sender : String
  recipient : String
  deriving DecidableEq, Repr

/-- Status of one tool invocation. -/
inductive EventStatus where
  | pending : EventStatus
  | completed : EventStatus
  | failed : EventStatus
  deriving DecidableEq, Repr

/-- Outcome record of one tool invocation. -/
structure Execution where
  status : EventStatus
  response : Option String
  error : Option String
  deriving DecidableEq, Repr

/-- A registered tool of the old core: its identity and the outcome of
its underlying callable. -/
structure Tool where
  ln_id : String
  behavior : Args → Except String String

/-- Modelled from the spec: `Tool.invoke` (lionagi/core/action/tool.py
is not under src/; only its caller `unit_mixin._process_action_request`
is).  Per spec §4.3 and the in-src `FunctionCalling.invoke`, an
invocation transitions `PENDING → COMPLETED` with the response payload,
or `PENDING → FAILED` with the exception's message captured; failures
are reported as data and `invoke` never raises, so it always returns an
invocation record (never Python `None`). -/
def Tool.invoke (t : Tool) (args : Args) : Execution :=
  match t.behavior args with
  | .ok v => ⟨.completed, some v, none⟩
  | .error e => ⟨.failed, none, some e⟩

/-- Conversation-state records touched by the dispatcher.  Modelled
from the spec: `Branch.add_message` (the Branch class is not under
src/) appends one record to the ordered message log (§6 Conversation
State: `append(message)`); an action-response record pairs the request
with its invocation outcome (§3). -/
inductive Message where
  | actionRequest : ActionRequest → Message
  | actionResponse : (req : ActionRequest) → (funcOutputs : Execution) →
      (sender : String) → (recipient : String) → Message
  deriving DecidableEq, Repr

/-- Registry lookup by function name
(`branch.tool_manager.registry[i.function]`). -/
def regLookup : List (String × Tool) → String → Option Tool
  | [], _ => none
  | (n, t) :: rest, name => if n = name then some t else regLookup rest name

/-- The resolution loop of `_process_action_request`
(unit_mixin.py:198-204): for each request in declaration order, set its
recipient to the registered tool's identity and append an
action-request record to the branch, or raise
`ActionError("Tool ... not found in registry")` — requests resolved
before the failing one remain appended, and the invocation phase is
never reached. -/
def resolveRequests (reg : List (String × Tool)) :
    List ActionRequest → List Message →
    List Message × Except String (List (ActionRequest × Tool))
  | [], br => (br, .ok [])
  | r :: rest, br =>
      match regLookup reg r.function with
      | some t =>
          let r' := { r with recipient := t.ln_id }
          match resolveRequests reg rest (br ++ [.actionRequest r']) with
          | (br', .ok pairs) => (br', .ok ((r', t) :: pairs))
          | (br', .error e) => (br', .error e)
      | none => (br, .error ("Tool " ++ r.function ++ " not found in registry"))

/-- The resolved request/tool pair a single declaration produces, when
its name is registered. -/
def resolveOne (reg : List (String × Tool)) (r : ActionRequest) :
    Option (ActionRequest × Tool) :=
  (regLookup reg r.function).map (fun t => ({ r with recipient := t.ln_id }, t))

/-- All resolved pairs of a request list, in declaration order. -/
def resolvedPairs (reg : List (String × Tool)) (reqs : List ActionRequest) :
    List (ActionRequest × Tool) :=
  reqs.filterMap (resolveOne reg)

/-- Events of a cooperative schedule: the order in which concurrently
running tasks complete, given by task index.  Running the tasks under a
schedule produces the completion log: (task index, task result) in
completion order. -/
def completionLog (tasks : List α) (sched : List Nat) : List (Nat × α) :=
  sched.filterMap (fun j => (tasks.get? j).map (fun a => (j, a)))

/-- First entry of an association list with the given Nat key. -/
def natLookup : List (Nat × α) → Nat → Option α
  | [], _ => none
  | (k, a) :: rest, j => if k = j then some a else natLookup rest j

/-- Embedding of `asyncio.gather(*tasks)`: all tasks run to completion
in schedule order, and the results are delivered in task order (the
order the awaitables were passed), reassembled from the completion
log. -/
def gather (tasks : List α) (sched : List Nat) : List (Option α) :=
  (List.range tasks.length).map (fun j => natLookup (completionLog tasks sched) j)

/-- The invocation phase of `_process_action_request`
(unit_mixin.py:206-221): create one task per resolved request in
declaration order, gather them under the given completion schedule, and
append an action-response record per non-`None` result, in task (i.e.
request) order, with sender the tool identity and recipient the
original requester.  Also returns the list of invocations started, in
start order. -/
def invokePhase (pairs : List (ActionRequest × Tool)) (sched : List Nat)
    (br : List Message) : List Message × List (String × Args) :=
  let started := pairs.map (fun p => (p.1.function, p.1.arguments))
  let tasks : List (Option Execution) :=
    pairs.map (fun p => some (p.2.invoke p.1.arguments))
  let results := gather tasks sched
  let resp := (pairs.zip results).filterMap (fun pr =>
    match pr.2 with
    | some (some ex) =>
        some (Message.actionResponse pr.1.1 ex pr.1.1.recipient pr.1.1.sender)
    | _ => none)
  (br ++ resp, started)

/-- Return signal of `_process_action_request`: the original message
when no action was parsed (`_msg if _msg else False`), or Python `None`
once responses are appended. -/
inductive DispatchOut where
  | noAction : Option String → DispatchOut
  | processedNone : DispatchOut
  deriving DecidableEq, Repr

/-- Embedding of `DirectiveMixin._process_action_request`
(unit_mixin.py:175-223).  `action_request` is the parser's output
(parsing itself is a pluggable external concern, spec §6); `sched` is
the completion order of the concurrent invocations.  Returns the
mutated branch, the invocations started, and the return value or the
raised `ActionError`. -/
def processActionRequest (reg : List (String × Tool)) (sched : List Nat)
    (invoke_tool : Bool) (msg : Option String)
    (action_request : Option (List ActionRequest)) (br : List Message) :
    (List Message × List (String × Args)) × Except String DispatchOut :=
  match action_request with
  | none => ((br, []), .ok (.noAction msg))
  | some reqs =>
      match resolveRequests reg reqs br with
      | (br1, .error e) => ((br1, []), .error e)
      | (br1, .ok pairs) =>
          if invoke_tool then
            let ip := invokePhase pairs sched br1
            ((ip.1, ip.2), .ok .processedNone)
          else ((br1, []), .ok .processedNone)

end Dispatch

namespace DirectLoop

/-- The view of a form that the extension loop reads: the derived
`extension_required` flag and the `answer` field
(spec §3 Form; unit_mixin.py:661, 693). -/
structure Form where
  extension_required : Bool
  answer : String
  deriving DecidableEq, Repr

/-- Whether the first character list starts the second. -/
def startsWithChars : List Char → List Char → Bool
  | [], _ => true
  | _ :: _, [] => false
  | c :: cs, d :: ds => (c = d) && startsWithChars cs ds

/-- Whether the first character list occurs inside the second. -/
def hasSubChars (needle : List Char) : List Char → Bool
  | [] => startsWithChars needle []
  | d :: ds => startsWithChars needle (d :: ds) || hasSubChars needle ds

/-- Python's `needle in haystack` substring test. -/
def containsSub (hay needle : String) : Bool :=
  hasSubChars needle.data hay.data

/-- The answer clean-up applied to the follow-up call's result
(unit_mixin.py:697): `str(answer).replace('{"answer": "', "").replace('"}', "")`. -/
def stripAnswer (s : String) : String :=
  (s.replace "\x7b\"answer\": \"" "").replace "\"\x7d" ""

/-- The budget actually used by `_base_direct` (unit_mixin.py:603-604):
`if allow_extension and not max_extension: max_extension = 3` — note
Python's `not` treats both `None` and `0` as falsy. -/
def postReset (allowExt : Bool) (maxExt : Option Nat) : Nat :=
  if allowExt && (maxExt.getD 0 == 0) then 3 else maxExt.getD 0

/-- Result of the extension while-loop: the final `last_form`, the
accumulated `extension_forms` (each `_extend` returns a list which is
appended as one element), the model-call counter, and the number of
`_extend` calls this loop performed. -/
structure LoopOut where
  lastForm : Option Form
  extForms : List (List Form)
  k : Nat
  rounds : Nat
  deriving DecidableEq, Repr

/-- Result of one `_direct`/`_base_direct` run: the returned form, its
attached `extension_forms`, the model-call counter after the run, the
number of `_extend` calls of this run's own loop, and the number of
PLEASE_ACTION follow-up calls it issued (0 or 1). -/
structure DirectOut where
  form : Form
  extForms : List (List Form)
  k : Nat
  rounds : Nat
  followups : Nat
  deriving DecidableEq, Repr

mutual

/-- Embedding of `_direct`/`_base_direct` (unit_mixin.py:541-699) for a
form without a `plan` field, driven by two oracles for the external
model endpoint, both indexed by the model-call counter: `chat k` is the
form produced by the `k`-th `_chat` call, and `fu k` the raw answer a
follow-up `_chat` call returns.  `fuel` is a structural-recursion
bound; the wrapper `directRun` supplies enough for the budget so the
`fuel = 0` fallback is never reached. -/
def directRunF (chat : Nat → Form) (fu : Nat → String) :
    Nat → Bool → Option Nat → Nat → DirectOut
  | 0, _, _, k => ⟨⟨false, "FUEL"⟩, [], k, 0, 0⟩
  | fuel + 1, allowExt, maxExt, k =>
      let m0 := postReset allowExt maxExt
      let form := chat k
      let L := loopGoF chat fu fuel allowExt m0 (some form) (k + 1)
      let hasS := containsSub form.answer "PLEASE_ACTION"
      ⟨{ form with answer := if hasS then stripAnswer (fu L.k) else form.answer },
       L.extForms, L.k + (if hasS then 1 else 0), L.rounds, if hasS then 1 else 0⟩

/-- The `while allow_extension and last_form.extension_required` loop of
`_base_direct` (unit_mixin.py:660-686) together with the single-step
(no-plan) branch of `_extend` (unit_mixin.py:777-781), which performs
one recursive `_direct` call: check the budget, decrement it, recurse
with `allow_extension = (max_extension > 0)`, append the returned
one-element form list, and continue from its first form. -/
def loopGoF (chat : Nat → Form) (fu : Nat → String) :
    Nat → Bool → Nat → Option Form → Nat → LoopOut
  | 0, _, _, lf, k => ⟨lf, [], k, 0⟩
  | fuel + 1, allowExt, m, lf, k =>
      if allowExt && (match lf with | some f => f.extension_required | none => false) then
        if m == 0 then ⟨lf, [], k, 0⟩
        else
          let m' := m - 1
          let inner := directRunF chat fu fuel (decide (0 < m')) (some m') k
          let rest := loopGoF chat fu fuel allowExt m' (some inner.form) inner.k
          ⟨rest.lastForm, [inner.form] :: rest.extForms, rest.k, rest.rounds + 1⟩
      else ⟨lf, [], k, 0⟩

end

/-- Fuel sufficient for a run with the given flags: the recursion
alternates `_base_direct` and its loop, each level strictly decreasing
the budget, so depth is linear in the post-reset budget. -/
def fuelFor (allowExt : Bool) (maxExt : Option Nat) : Nat :=
  2 * postReset allowExt maxExt + 3

/-- One `_direct` run with enough fuel for its budget. -/
def directRun (chat : Nat → Form) (fu : Nat → String) (allowExt : Bool)
    (maxExt : Option Nat) (k : Nat) : DirectOut :=
  directRunF chat fu (fuelFor allowExt maxExt) allowExt maxExt k

/-- The extension-loop part of a `directRun`, as the run performs it
(used to name the model-call counter at which the PLEASE_ACTION
follow-up, if any, is issued). -/
def loopPart (chat : Nat → Form) (fu : Nat → String) (allowExt : Bool)
    (maxExt : Option Nat) (k : Nat) : LoopOut :=
  loopGoF chat fu (2 * postReset allowExt maxExt + 2) allowExt
    (postReset allowExt maxExt) (some (chat k)) (k + 1)

end DirectLoop

namespace Fixtures

open AsyncUtils

/-- An operation that raises a user-defined exception (`custom 0`,
message "boom") on every invocation, instantly. -/
def fFail : Nat → AttemptOutcome := fun _ => ⟨0, .error ⟨.custom 0, "boom"⟩⟩

/-- C1 failing input: `num_retries = 2`, no default, no error_map. -/
def cfgC1 : RCfg :=
  { numRetries := 2
    delay := 0
    retryDelay := 1
    backoffFactor := 2
    default := .undefined
    timeout := none
    timing := false
    errMsg := none
    errorMap := [] }

/-- C6 failing input: `num_retries = 1`, empty error_map — the raised
exception is not mapped, so per the spec it should be retried once. -/
def cfgC6 : RCfg :=
  { numRetries := 1
    delay := 0
    retryDelay := 0
    backoffFactor := 1
    default := .undefined
    timeout := none
    timing := false
    errMsg := none
    errorMap := [] }

/-- C6 companion: the same call but with the raised exception's type
mapped to a handler that returns normally. -/
def cfgC6m : RCfg :=
  { numRetries := 1
    delay := 0
    retryDelay := 0
    backoffFactor := 1
    default := .undefined
    timeout := none
    timing := false
    errMsg := none
    errorMap := [(.custom 0, fun _ => .ok ())] }

/-- C7 counterexample input: `timing=True`, a configured default, and an
error_map whose handler itself raises, so every attempt raises out of
`tcall` and `rcall` reaches its return-default branch. -/
def cfgC7 : RCfg :=
  { numRetries := 0
    delay := 0
    retryDelay := 0
    backoffFactor := 1
    default := .val (.int 42)
    timeout := none
    timing := true
    errMsg := none
    errorMap := [(.custom 0, fun _ => .error ⟨.custom 1, "handler boom"⟩)] }

/-- C7 witness input: `timing=True` with an operation that succeeds. -/
def cfgC7w : RCfg :=
  { numRetries := 1
    delay := 0
    retryDelay := 0
    backoffFactor := 1
    default := .val (.int 42)
    timeout := none
    timing := true
    errMsg := none
    errorMap := [] }

/-- An operation that returns 5 after 3 ticks on every invocation. -/
def fOk5 : Nat → AttemptOutcome := fun _ => ⟨3, .ok (.int 5)⟩

/-- C10 witness input: a `tcall` with a timeout of 5, a handler mapped
to `TimeoutError` in error_map, and a configured default. -/
def cfgC10 : TCfg :=
  { delay := 2
    errMsg := none
    timing := false
    timeout := some 5
    default := .val (.int 9)
    errorMap := [(.timeoutErr, fun _ => .ok ())] }

/-- C10 witness attempt: the callee would need 9 ticks, beyond the
timeout of 5. -/
def attSlow : AttemptOutcome := ⟨9, .ok (.int 7)⟩

/-- C5 witness: a strict tool requiring fields a and b. -/
def toolStrict : FnCall.Tool :=
  { strict_func_call := true
    required_fields := {"a", "b"}
    minimum_acceptable_fields := {"a"}
    func_callable := fun _ => .ok "ran"
    preprocessor := none
    postprocessor := none }

/-- C5 witness: a non-strict tool with minimum-acceptable field a. -/
def toolLoose : FnCall.Tool :=
  { strict_func_call := false
    required_fields := {"a", "b"}
    minimum_acceptable_fields := {"a"}
    func_callable := fun _ => .ok "ran"
    preprocessor := none
    postprocessor := none }

/-- A registry with a succeeding tool A and a failing tool B. -/
def regAB : List (String × Dispatch.Tool) :=
  [("A", { ln_id := "tool_A", behavior := fun _ => .ok "ok-A" }),
   ("B", { ln_id := "tool_B", behavior := fun _ => .error "B blew up" })]

/-- Parsed action request for tool A. -/
def reqA : Dispatch.ActionRequest :=
  { function := "A", arguments := [("x", "1")], sender := "branch_1", recipient := "" }

/-- Parsed action request for tool B. -/
def reqB : Dispatch.ActionRequest :=
  { function := "B", arguments := [("y", "2")], sender := "branch_1", recipient := "" }

/-- Parsed action request for an unregistered tool C. -/
def reqC : Dispatch.ActionRequest :=
  { function := "C", arguments := [], sender := "branch_1", recipient := "" }

/-- A model whose every response signals "extension required". -/
def chatExt : Nat → DirectLoop.Form := fun _ => ⟨true, "keep going"⟩

/-- A model whose response answer contains the PLEASE_ACTION sentinel
and does not request an extension. -/
def chatSent : Nat → DirectLoop.Form := fun _ => ⟨false, "so PLEASE_ACTION then"⟩

/-- Follow-up answers: the k-th model call would answer with a wrapped
final answer. -/
def fuAns : Nat → String := fun k => "\x7b\"answer\": \"final-" ++ toString k ++ "\"\x7d"

end Fixtures


section ExecutorTheorems

open AsyncUtils Fixtures

/-- Every value returned (not raised) by `tcall` under `timing=True` is
a `(result, duration)` pair: all four return paths attach the elapsed
time. -/
theorem tcall_timing_timed (cfg : TCfg) (att : AttemptOutcome) (ht : cfg.timing = true)
    (v : V) (h : (tcall cfg att).res = .ok v) : v.isTimed = true := by
  rcases hef : tryBlock cfg att with ⟨res, d⟩
  rcases res with e | w
  · by_cases hty : e.ty = ExcTy.timeoutErr
    · rcases hdf : cfg.default with _ | dv
      · simp [tcall, handleOutcome, hef, hty, hdf] at h
      · simp [tcall, handleOutcome, hef, hty, hdf, ht] at h
        subst h
        rfl
    · rcases hem : emLookup cfg.errorMap e.ty with _ | hd
      · rcases hdf : cfg.default with _ | dv
        · simp [tcall, handleOutcome, hef, hty, hem, hdf] at h
        · simp [tcall, handleOutcome, hef, hty, hem, hdf, ht] at h
          subst h
          rfl
      · rcases hhe : hd e with e2 | u
        · simp [tcall, handleOutcome, hef, hty, hem, hhe] at h
        · simp [tcall, handleOutcome, hef, hty, hem, hhe, ht] at h
          subst h
          rfl
  · simp [tcall, handleOutcome, hef, ht] at h
    subst h
    rfl

/-- C1: the spec claims an always-failing operation under
`num_retries = n` is attempted exactly `n + 1` times and then a wrapped
RetriesExhausted failure is raised (or the configured default
returned).  The code contradicts its own docstring and inline comment:
`rcall` passes `default=...` (Ellipsis) to `tcall`, which treats it as
a configured default, swallows the first failure, and returns Ellipsis
— so with `num_retries = 2` the operation is invoked exactly once and
`rcall` returns the Ellipsis object without raising. -/
theorem rcall_always_failing_one_attempt_ellipsis :
    rcall cfgC1 fFail = ⟨.ok .ellipsis, 1, []⟩ := rfl

/-- C6: an exception whose type is mapped in `error_map` invokes the
handler and the call returns `None` immediately without retrying, as
the claim states (first conjunct); but an exception NOT in `error_map`
is also never retried, contradicting the claim's last part: with
`num_retries = 1` and an empty `error_map`, the always-failing
operation is invoked exactly once and Ellipsis is returned instead of
a second attempt being made (second conjunct). -/
theorem rcall_unmapped_exception_not_retried :
    rcall cfgC6m fFail = ⟨.ok .vnone, 1, [.custom 0]⟩ ∧
    rcall cfgC6 fFail = ⟨.ok .ellipsis, 1, []⟩ :=
  ⟨rfl, rfl⟩

/-- C7 counterexample: with `timing=True`, a configured `default`, and
an `error_map` handler that itself raises, every attempt raises out of
`tcall`, and `rcall` returns the bare configured default `42` — not a
`(result, elapsed)` pair — refuting "the returned value is a
(result, elapsed-seconds) pair on every outcome path". -/
theorem rcall_timing_bare_default_cex :
    cfgC7.timing = true ∧ (rcall cfgC7 fFail).res = .ok (.int 42) ∧
      (V.int 42).isTimed = false :=
  ⟨rfl, rfl, rfl⟩

/-- C7 amended: with `timing=True`, every value `rcall` returns is a
`(result, elapsed)` pair, except on the path where all attempts raised
out of `tcall` and the configured default is returned — there the
default is returned bare, without timing (as the code's own comment
states). -/
theorem rcall_timing_pair_except_bare_default (cfg : RCfg)
    (f : Nat → AttemptOutcome) (ht : cfg.timing = true) (v : V)
    (h : (rcall cfg f).res = .ok v) :
    v.isTimed = true ∨ cfg.default = .val v := by
  unfold rcall at h
  suffices H : ∀ r i v, (rcallLoop cfg f i r).res = .ok v →
      v.isTimed = true ∨ cfg.default = Dflt.val v from H _ _ _ h
  intro r
  induction r with
  | zero => intro i v h; simp [rcallLoop] at h
  | succ r ih =>
      intro i v h
      rcases htc : (tcall (tcfgOf cfg i) (f i)).res with e | w
      · by_cases hr : 0 < r
        · simp only [rcallLoop, htc, hr, if_true] at h
          exact ih (i + 1) v h
        · rcases hdf : cfg.default with _ | dv
          · simp [rcallLoop, htc, hr, hdf] at h
          · simp [rcallLoop, htc, hr, hdf] at h
            subst h
            exact Or.inr rfl
      · simp [rcallLoop, htc] at h
        subst h
        exact Or.inl (tcall_timing_timed _ _ (by simp [tcfgOf, ht]) _ htc)

/-- C7 witness: the amended theorem applied at a successful timed call,
whose returned value is the pair `(5, 3)`. -/
theorem rcall_timing_pair_except_bare_default_witness :
    cfgC7w.timing = true ∧ (rcall cfgC7w fOk5).res = .ok (.timed (.int 5) 3) ∧
      ((V.timed (.int 5) 3).isTimed = true ∨ cfgC7w.default = .val (.timed (.int 5) 3)) :=
  ⟨rfl, rfl, rcall_timing_pair_except_bare_default cfgC7w fOk5 rfl _ rfl⟩

/-- C10: in `tcall`, the dedicated `except TimeoutError` branch runs
before the `except Exception` branch that consults `error_map`: when an
attempt exceeds its timeout, no handler is invoked (not even one
registered for `TimeoutError`), the configured default is returned if
there is one, and otherwise a `TimeoutError` is raised. -/
theorem tcall_timeout_branch_shadows_error_map (cfg : TCfg)
    (att : AttemptOutcome) (t : Nat) (hto : cfg.timeout = some t)
    (hdur : t < att.dur) :
    (tcall cfg att).handlers = [] ∧
    (∀ dv, cfg.default = .val dv →
      (tcall cfg att).res = .ok (if cfg.timing then .timed dv (cfg.delay + t) else dv)) ∧
    (cfg.default = .undefined →
      (tcall cfg att).res = .error ⟨.timeoutErr,
        (cfg.errMsg.getD "") ++ " Timeout " ++ toString t ++ " seconds exceeded"⟩) := by
  have hef : tryBlock cfg att = (Except.error ⟨.timeoutErr, "wait_for"⟩, cfg.delay + t) := by
    simp [tryBlock, hto, hdur]
  refine ⟨?_, ?_, ?_⟩
  · rcases hdf : cfg.default with _ | dv <;>
      simp [tcall, handleOutcome, hef, hdf]
  · intro dv hdf
    simp [tcall, handleOutcome, hef, hdf]
  · intro hdf
    simp [tcall, handleOutcome, hef, hdf, hto]

/-- C10 witness: a timed-out attempt under a config that maps
`TimeoutError` in `error_map` and configures default 9: the handler is
not invoked and the bare default 9 is returned. -/
theorem tcall_timeout_branch_shadows_error_map_witness :
    cfgC10.timeout = some 5 ∧ 5 < attSlow.dur ∧
    ((tcall cfgC10 attSlow).handlers = [] ∧
      (tcall cfgC10 attSlow).res =
        .ok (if cfgC10.timing then .timed (.int 9) (cfgC10.delay + 5) else .int 9)) :=
  ⟨rfl, by decide,
    (tcall_timeout_branch_shadows_error_map cfgC10 attSlow 5 rfl (by decide)).1,
    (tcall_timeout_branch_shadows_error_map cfgC10 attSlow 5 rfl (by decide)).2.1 (.int 9) rfl⟩

end ExecutorTheorems

section StrictToolTheorems

open FnCall Fixtures

/-- C5: a strict tool invoked with an argument dict missing at least one
required field fails validation with "arguments must match the function
schema" at event construction, and the underlying callable is never
executed; a non-strict tool whose argument keys are a superset of its
minimum-acceptable fields passes validation and the underlying callable
is executed. -/
theorem strict_validation_gates_callable (t : FnCall.Tool) (args : FnCall.Args) :
    (t.strict_func_call = true → (∃ x ∈ t.required_fields, x ∉ argKeys args) →
      createAndInvoke t args = (.error "arguments must match the function schema", false)) ∧
    (t.strict_func_call = false → t.preprocessor = none →
      t.minimum_acceptable_fields ⊆ argKeys args →
      validate_strict_tool t args = .ok () ∧ (createAndInvoke t args).2 = true) := by
  constructor
  · rintro hs ⟨x, hxr, hxk⟩
    have hne : ¬ argKeys args = t.required_fields := fun hEq => hxk (hEq ▸ hxr)
    simp [createAndInvoke, validate_strict_tool, hs, hne]
  · intro hs hpre hsub
    have hval : validate_strict_tool t args = .ok () := by
      simp [validate_strict_tool, hs, hsub]
    refine ⟨hval, ?_⟩
    have h2 : (createAndInvoke t args).2 = (invoke t args).callableExecuted := by
      simp [createAndInvoke, hval]
    rw [h2]
    unfold invoke
    rw [hpre]
    rcases hf : t.func_callable args with e | r
    · simp [hf]
    · rcases hpost : t.postprocessor with _ | q
      · simp [hf, hpost]
      · rcases hq : q r with e2 | r2 <;> simp [hf, hpost, hq]

/-- C5 witness: a strict tool requiring a and b, invoked with only a,
fails without running its callable; a non-strict tool with minimum
field a, invoked with the strict superset of keys a and c, runs its
callable. -/
theorem strict_validation_gates_callable_witness :
    (toolStrict.strict_func_call = true ∧
      (∃ x ∈ toolStrict.required_fields, x ∉ argKeys [("a", "1")]) ∧
      createAndInvoke toolStrict [("a", "1")] =
        (.error "arguments must match the function schema", false)) ∧
    (toolLoose.strict_func_call = false ∧ toolLoose.preprocessor = none ∧
      toolLoose.minimum_acceptable_fields ⊆ argKeys [("a", "1"), ("c", "2")] ∧
      (validate_strict_tool toolLoose [("a", "1"), ("c", "2")] = .ok () ∧
        (createAndInvoke toolLoose [("a", "1"), ("c", "2")]).2 = true)) :=
  ⟨⟨rfl, by decide,
      (strict_validation_gates_callable toolStrict [("a", "1")]).1 rfl (by decide)⟩,
   ⟨rfl, rfl, by decide,
      (strict_validation_gates_callable toolLoose [("a", "1"), ("c", "2")]).2 rfl rfl (by decide)⟩⟩

end StrictToolTheorems

section DispatchTheorems

open Dispatch Fixtures

/-- Looking up a completion log entry: if `j` occurs in the schedule
and is a valid task index, the log holds task `j`'s result. -/
theorem natLookup_completionLog {α : Type} (tasks : List α) :
    ∀ (sched : List Nat) (j : Nat), j ∈ sched → j < tasks.length →
      natLookup (completionLog tasks sched) j = tasks[j]? := by
  intro sched
  induction sched with
  | nil => intro j hmem; simp at hmem
  | cons k rest ih =>
      intro j hmem hlt
      by_cases hkj : k = j
      · subst hkj
        rcases hk : tasks[k]? with _ | a
        · rw [List.getElem?_eq_getElem hlt] at hk
          simp at hk
        · simp [completionLog, List.filterMap_cons, List.get?_eq_getElem?, hk, natLookup]
      · rcases List.mem_cons.mp hmem with h | h
        · exact absurd h.symm hkj
        · rcases hk : tasks[k]? with _ | a
          · simpa [completionLog, List.filterMap_cons, List.get?_eq_getElem?, hk]
              using ih j h hlt
          · simpa [completionLog, List.filterMap_cons, List.get?_eq_getElem?, hk,
              natLookup, hkj] using ih j h hlt

/-- `asyncio.gather` is order-preserving: under any completion schedule
that is a permutation of the task indices, the gathered results are the
tasks' results in task order, independent of completion order. -/
theorem gather_perm {α : Type} (tasks : List α) (sched : List Nat)
    (h : sched.Perm (List.range tasks.length)) :
    gather tasks sched = tasks.map some := by
  apply List.ext_getElem?
  intro i
  by_cases hi : i < tasks.length
  · have hmem : i ∈ sched := h.mem_iff.mpr (List.mem_range.mpr hi)
    have hlook := natLookup_completionLog tasks sched i hmem hi
    show ((List.range tasks.length).map
        (fun j => natLookup (completionLog tasks sched) j))[i]? = (tasks.map some)[i]?
    rw [List.getElem?_map, List.getElem?_map, List.getElem?_range hi]
    simp [hlook, List.getElem?_eq_getElem hi]
  · have h1 : (gather tasks sched).length = tasks.length := by simp [gather]
    have h2 : (tasks.map some).length = tasks.length := by simp
    rw [List.getElem?_eq_none (by omega), List.getElem?_eq_none (by omega)]

/-- The response-append loop of the invocation phase: zipping the
resolved pairs with their gathered (all-`some`) results and filtering
yields exactly one response per pair, in pair order. -/
theorem zip_results_responses (pairs : List (ActionRequest × Tool)) :
    (pairs.zip ((pairs.map (fun p => some (p.2.invoke p.1.arguments))).map some)).filterMap
        (fun pr =>
          match pr.2 with
          | some (some ex) =>
              some (Message.actionResponse pr.1.1 ex pr.1.1.recipient pr.1.1.sender)
          | _ => none) =
      pairs.map (fun p =>
        Message.actionResponse p.1 (p.2.invoke p.1.arguments) p.1.recipient p.1.sender) := by
  induction pairs with
  | nil => rfl
  | cons p ps ih => simpa using ih

/-- The invocation phase, for a schedule that is a permutation of the
task indices: the branch is extended by one action-response record per
resolved request, in request order, and the started invocations are the
requests in declaration order — both independent of the schedule. -/
theorem invokePhase_eq (pairs : List (ActionRequest × Tool)) (sched : List Nat)
    (br : List Message) (h : sched.Perm (List.range pairs.length)) :
    invokePhase pairs sched br =
      (br ++ pairs.map (fun p =>
          Message.actionResponse p.1 (p.2.invoke p.1.arguments) p.1.recipient p.1.sender),
       pairs.map (fun p => (p.1.function, p.1.arguments))) := by
  have hlen : (pairs.map (fun p => some (p.2.invoke p.1.arguments))).length = pairs.length := by
    simp
  have hg := gather_perm (pairs.map (fun p => some (p.2.invoke p.1.arguments))) sched
    (by rw [hlen]; exact h)
  simp only [invokePhase]
  rw [hg, zip_results_responses]

/-- When every request's function name is registered, the resolution
loop appends one action-request record per request, in declaration
order, and returns the resolved pairs. -/
theorem resolveRequests_ok (reg : List (String × Tool)) :
    ∀ (reqs : List ActionRequest) (br : List Message),
      (∀ r ∈ reqs, (regLookup reg r.function).isSome = true) →
      resolveRequests reg reqs br =
        (br ++ (resolvedPairs reg reqs).map (fun p => Message.actionRequest p.1),
         .ok (resolvedPairs reg reqs)) := by
  intro reqs
  induction reqs with
  | nil => intro br h; simp [resolveRequests, resolvedPairs]
  | cons r rest ih =>
      intro br h
      rcases hk : regLookup reg r.function with _ | t
      · have := h r (List.mem_cons_self r rest)
        rw [hk] at this
        simp at this
      · have hrest := ih (br ++ [Message.actionRequest { r with recipient := t.ln_id }])
          (fun x hx => h x (List.mem_cons_of_mem r hx))
        simp only [resolveRequests, hk, hrest]
        simp [resolvedPairs, resolveOne, hk, List.filterMap_cons]

end DispatchTheorems

section DispatchClaimTheorems

open Dispatch Fixtures

/-- C2: dispatching N parsed action requests appends all N
action-request records to the conversation state in declaration order
before the invocation phase starts, and then appends the N
action-response records in the same order as their requests — the
result is the same for every completion schedule of the concurrent
invocations (any permutation of the task indices). -/
theorem dispatch_requests_then_responses_in_order
    (reg : List (String × Dispatch.Tool)) (sched : List Nat)
    (reqs : List ActionRequest) (br : List Message)
    (h1 : ∀ r ∈ reqs, (regLookup reg r.function).isSome = true)
    (h2 : sched.Perm (List.range reqs.length)) :
    processActionRequest reg sched true none (some reqs) br =
      ((br ++ (resolvedPairs reg reqs).map (fun p => Message.actionRequest p.1)
          ++ (resolvedPairs reg reqs).map (fun p =>
              Message.actionResponse p.1 (p.2.invoke p.1.arguments)
                p.1.recipient p.1.sender),
        (resolvedPairs reg reqs).map (fun p => (p.1.function, p.1.arguments))),
       .ok .processedNone) := by
  have hlen : ∀ (l : List ActionRequest),
      (∀ r ∈ l, (regLookup reg r.function).isSome = true) →
      (resolvedPairs reg l).length = l.length := by
    intro l
    induction l with
    | nil => intro _; simp [resolvedPairs]
    | cons r rest ih =>
        intro hh
        rcases hk : regLookup reg r.function with _ | t
        · have := hh r (List.mem_cons_self r rest)
          rw [hk] at this
          simp at this
        · have hre := ih (fun x hx => hh x (List.mem_cons_of_mem r hx))
          simp only [resolvedPairs, List.filterMap_cons, resolveOne, hk, Option.map_some,
            List.length_cons]
          simpa [resolvedPairs, resolveOne] using hre
  have hres := resolveRequests_ok reg reqs br h1
  have hip := invokePhase_eq (resolvedPairs reg reqs) sched
      (br ++ (resolvedPairs reg reqs).map (fun p => Message.actionRequest p.1))
      (by rw [hlen reqs h1]; exact h2)
  simp only [processActionRequest, hres, hip]
  simp [List.append_assoc]

/-- C2 witness: two requests for tools A and B dispatched under the
reversed completion schedule (B finishes first): the branch still
receives request A, request B, response A, response B, in that order. -/
theorem dispatch_requests_then_responses_in_order_witness :
    (∀ r ∈ [reqA, reqB], (regLookup regAB r.function).isSome = true) ∧
    ([1, 0] : List Nat).Perm (List.range [reqA, reqB].length) ∧
    processActionRequest regAB [1, 0] true none (some [reqA, reqB]) [] =
      (([] ++ (resolvedPairs regAB [reqA, reqB]).map (fun p => Message.actionRequest p.1)
          ++ (resolvedPairs regAB [reqA, reqB]).map (fun p =>
              Message.actionResponse p.1 (p.2.invoke p.1.arguments)
                p.1.recipient p.1.sender),
        (resolvedPairs regAB [reqA, reqB]).map (fun p => (p.1.function, p.1.arguments))),
       .ok .processedNone) :=
  ⟨by decide, by decide,
    dispatch_requests_then_responses_in_order regAB [1, 0] [reqA, reqB] []
      (by decide) (by decide)⟩

/-- C3: dispatching requests for registered tools A and B where A's
callable succeeds and B's raises appends two action-response records —
A's marked completed with its payload, B's marked failed with the
error message, in request order (here under the schedule where B
completes first) — and the dispatch returns normally (`None`) without
raising. -/
theorem dispatch_partial_failure_two_responses :
    processActionRequest regAB [1, 0] true none (some [reqA, reqB]) [] =
      (([Message.actionRequest { reqA with recipient := "tool_A" },
         Message.actionRequest { reqB with recipient := "tool_B" },
         Message.actionResponse { reqA with recipient := "tool_A" }
           ⟨.completed, some "ok-A", none⟩ "tool_A" "branch_1",
         Message.actionResponse { reqB with recipient := "tool_B" }
           ⟨.failed, none, some "B blew up"⟩ "tool_B" "branch_1"],
        [("A", [("x", "1")]), ("B", [("y", "2")])]),
       .ok .processedNone) := by
  decide

/-- The resolution loop on a batch containing an unregistered name
raises `ActionError` for some unregistered request of the batch. -/
theorem resolveRequests_err (reg : List (String × Dispatch.Tool)) :
    ∀ (reqs : List ActionRequest) (br : List Message),
      (∃ r ∈ reqs, regLookup reg r.function = none) →
      ∃ r ∈ reqs, regLookup reg r.function = none ∧
        (resolveRequests reg reqs br).2 =
          .error ("Tool " ++ r.function ++ " not found in registry") := by
  intro reqs
  induction reqs with
  | nil => intro br h; simp at h
  | cons r rest ih =>
      intro br h
      rcases hk : regLookup reg r.function with _ | t
      · exact ⟨r, List.mem_cons_self r rest, hk, by simp [resolveRequests, hk]⟩
      · obtain ⟨r0, hr0, hn0⟩ := h
        rcases List.mem_cons.mp hr0 with hEq | hmem
        · subst hEq
          rw [hk] at hn0
          simp at hn0
        · obtain ⟨r1, hr1, hn1, herr⟩ :=
            ih (br ++ [Message.actionRequest { r with recipient := t.ln_id }])
              ⟨r0, hmem, hn0⟩
          refine ⟨r1, List.mem_cons_of_mem r hr1, hn1, ?_⟩
          rcases hrec : resolveRequests reg rest
              (br ++ [Message.actionRequest { r with recipient := t.ln_id }]) with ⟨br2, res2⟩
          rw [hrec] at herr
          rcases res2 with e | pairs
          · simp only at herr
            simp [resolveRequests, hk, hrec, herr]
          · simp at herr

/-- C4: if any declaration in the parsed batch names an unregistered
tool, the whole dispatch fails with the `ActionError` "Tool ... not
found in registry" and no tool invocation is started for any
declaration of the batch (the started-invocations list is empty),
whatever the schedule, `invoke_tool` flag, and prior branch contents. -/
theorem dispatch_unregistered_tool_fails_fast
    (reg : List (String × Dispatch.Tool)) (sched : List Nat) (invokeT : Bool)
    (msg : Option String) (reqs : List ActionRequest) (br : List Message)
    (h : ∃ r ∈ reqs, regLookup reg r.function = none) :
    (∃ r ∈ reqs, regLookup reg r.function = none ∧
      (processActionRequest reg sched invokeT msg (some reqs) br).2 =
        .error ("Tool " ++ r.function ++ " not found in registry")) ∧
    (processActionRequest reg sched invokeT msg (some reqs) br).1.2 = [] := by
  obtain ⟨r, hr, hn, herr⟩ := resolveRequests_err reg reqs br h
  rcases hres : resolveRequests reg reqs br with ⟨br1, res⟩
  rw [hres] at herr
  rcases res with e | pairs
  · simp only at herr
    constructor
    · exact ⟨r, hr, hn, by simp [processActionRequest, hres, herr]⟩
    · simp [processActionRequest, hres]
  · simp at herr

/-- C4 witness: a batch naming registered A and unregistered C fails
with the `ActionError` for C and starts no invocation. -/
theorem dispatch_unregistered_tool_fails_fast_witness :
    (∃ r ∈ [reqA, reqC], regLookup regAB r.function = none) ∧
    ((∃ r ∈ [reqA, reqC], regLookup regAB r.function = none ∧
      (processActionRequest regAB [0, 1] true none (some [reqA, reqC]) []).2 =
        .error ("Tool " ++ r.function ++ " not found in registry")) ∧
    (processActionRequest regAB [0, 1] true none (some [reqA, reqC]) []).1.2 = []) :=
  ⟨⟨reqC, by decide, rfl⟩,
    dispatch_unregistered_tool_fails_fast regAB [0, 1] true none [reqA, reqC] []
      ⟨reqC, by decide, rfl⟩⟩

end DispatchClaimTheorems

section DirectLoopTheorems

open DirectLoop Fixtures

/-- C8: a directive run with `allow_extension` enabled and
`max_extension = 2`, against a model whose every response signals
"extension required", performs exactly 2 additional extension cycles
(two `_extend` calls, two accumulated extension-form entries) and then
terminates — the budget check `max_extension <= 0` breaks the loop. -/
theorem direct_extension_budget_two_rounds (chat : Nat → Form)
    (fu : Nat → String) (hext : ∀ i, (chat i).extension_required = true) (k : Nat) :
    (directRun chat fu true (some 2) k).rounds = 2 ∧
    (directRun chat fu true (some 2) k).extForms.length = 2 := by
  constructor <;>
    simp [directRun, fuelFor, postReset, directRunF, loopGoF, hext]

/-- C8 witness: the always-extending model under budget 2 performs
exactly two extension rounds. -/
theorem direct_extension_budget_two_rounds_witness :
    (∀ i, (chatExt i).extension_required = true) ∧
    ((directRun chatExt fuAns true (some 2) 0).rounds = 2 ∧
      (directRun chatExt fuAns true (some 2) 0).extForms.length = 2) :=
  ⟨fun _ => rfl, direct_extension_budget_two_rounds chatExt fuAns (fun _ => rfl) 0⟩

/-- C9: when the form produced for this run contains the literal
sentinel "PLEASE_ACTION" in its answer, the directive loop issues
exactly one additional follow-up model call after action/extension
handling, and the form's answer is replaced by the follow-up call's
result with the JSON answer wrapper stripped. -/
theorem direct_please_action_single_followup (chat : Nat → Form)
    (fu : Nat → String) (allowExt : Bool) (maxExt : Option Nat) (k : Nat)
    (h : containsSub (chat k).answer "PLEASE_ACTION" = true) :
    (directRun chat fu allowExt maxExt k).followups = 1 ∧
    (directRun chat fu allowExt maxExt k).form.answer =
      stripAnswer (fu (loopPart chat fu allowExt maxExt k).k) := by
  have hfuel : fuelFor allowExt maxExt = (2 * postReset allowExt maxExt + 2) + 1 := rfl
  unfold directRun
  rw [hfuel]
  constructor <;> simp [directRunF, loopPart, h]

/-- C9 witness: a response whose answer contains the sentinel and does
not request an extension leads to exactly one follow-up call, whose
wrapped answer is unwrapped into the form's answer. -/
theorem direct_please_action_single_followup_witness :
    containsSub (chatSent 0).answer "PLEASE_ACTION" = true ∧
    ((directRun chatSent fuAns false none 0).followups = 1 ∧
      (directRun chatSent fuAns false none 0).form.answer =
        stripAnswer (fuAns (loopPart chatSent fuAns false none 0).k)) :=
  ⟨by decide, direct_please_action_single_followup chatSent fuAns false none 0 (by decide)⟩

end DirectLoopTheorems
